import Mathlib

/-!
Verification of the Egressus Melodiam CV engine
(src/software/contrib/egressus_melodiam.py).

The Python source is shallowly embedded below.  Numeric values (Python
floats and ints) are modelled as `ℚ` and `ℤ`/`ℕ`; Python's `int(x)`
truncation toward zero is `pyInt`.  `math.cos` and the float constant
`math.pi` are irrational, so the cosine-based slew shapes are
parameterised over a rational approximation `piA` of `math.pi` and an
oracle `cosF : ℚ → ℚ` for `math.cos`; nothing proved here depends on
their values.  Each slew-shape function in the source writes the buffer
at consecutive indices `c = 0, 1, 2, …` starting from 0, so a shape is
embedded as the list of values it writes, in order; applying it to a
buffer is `applyWrites`.
-/

namespace EgressusMelodiam

/-- Python `int(x)` for a rational: truncation toward zero. -/
def pyInt (q : ℚ) : ℤ := if 0 ≤ q then ⌊q⌋ else ⌈q⌉

/-- Python `round(x, 4)`: round to four decimal places, ties to even
(banker's rounding), idealised over `ℚ`.  No claim proved here depends
on the value of a rounded sample. -/
def pyRound4 (q : ℚ) : ℚ :=
  let f : ℤ := ⌊q * 10000⌋
  let r : ℚ := q * 10000 - f
  (if r < 1/2 then f else if 1/2 < r then f + 1
   else if Even f then f else f + 1 : ℤ) / 10000

/-- `MIN_CLOCK_TIME_MS = 50` -/
def MIN_CLOCK_TIME_MS : ℕ := 50

/-- `MAX_CLOCK_TIME_MS = 3750` -/
def MAX_CLOCK_TIME_MS : ℕ := 3750

/-- `MAX_SAMPLE_RATE = 32` -/
def MAX_SAMPLE_RATE : ℕ := 32

/-- `MAX_OUTPUT_DENOMINATOR = 8` -/
def MAX_OUTPUT_DENOMINATOR : ℕ := 8

/-- `SLEW_BUFFER_SIZE_IN_SAMPLES = int((MAX_CLOCK_TIME_MS / 1000) * MAX_SAMPLE_RATE * MAX_OUTPUT_DENOMINATOR)` -/
def SLEW_BUFFER_SIZE_IN_SAMPLES : ℤ :=
  pyInt (((MAX_CLOCK_TIME_MS : ℚ) / 1000) * MAX_SAMPLE_RATE * MAX_OUTPUT_DENOMINATOR)

/-- `MAX_CV_VOLTAGE = europi_config.MAX_OUTPUT_VOLTAGE`.  Modelled from the
spec: the value comes from external configuration (a configurable ceiling
≥ 0, 10 V by default); no claim proved here depends on it. -/
def MAX_CV_VOLTAGE : ℚ := 10

/-- `MAX_STEP_LENGTH = 32` -/
def MAX_STEP_LENGTH : ℕ := 32

/-- `CLOCK_DIFF_BUFFER_LEN = 5` -/
def CLOCK_DIFF_BUFFER_LEN : ℕ := 5

/-- `MIN_CLOCK_CHANGE_DETECTION_MS = 100` -/
def MIN_CLOCK_CHANGE_DETECTION_MS : ℕ := 100

/-- `BOOL_DICT = {False: 0, True: 1}` -/
def BOOL_DICT (b : Bool) : ℕ := if b then 1 else 0

/-- `self.voltageExtremes = [0, MAX_CV_VOLTAGE]` -/
def voltageExtremes : List ℚ := [0, MAX_CV_VOLTAGE]

/-- `self.resetTimeout = MAX_CLOCK_TIME_MS` (set once in `__init__`, never
reassigned). -/
def resetTimeout : ℕ := MAX_CLOCK_TIME_MS

/-!
## Shape library (`stepUpStepDown`, `linspace`, `logUpStepDown`,
`stepUpExpDown`, `smooth`, `expUpexpDown`, `sharkTooth`,
`sharkToothReverse`)

Each embedding returns the list of samples the Python function writes to
the buffer, in write order (the source writes `buffer[c]` with `c`
starting at 0 and incremented once per write).  The requested count `num`
is a Python `int` which may be negative; `range(k)` over a negative or
zero integer bound performs no iterations, matching `ℕ` with truncated
subtraction and `Int.toNat` at the call site.  The loop bound `num / 2`
in the LFO branches of `stepUpStepDown` and `logUpStepDown` is a Python
*float* (`/` is true division), and `range` rejects a float with
`TypeError`, so those branches raise before writing anything; a shape
call that raises is modelled as `none`, a completed call as `some` of
the written prefix. -/

/-- `stepUpStepDown(self, start, stop, num, buffer)`: in LFO mode
(`patternLength == 1`) the loop `for i in range(num / 2)` raises
`TypeError` (float bound) before any write — `none`; otherwise it writes
`num - 1` copies of `stop`.  (`start` is unused in the non-raising
branch.)  The engine itself never calls this function: slew mode 0 is
special-cased to the precomputed square output in `handleClockStep`. -/
def stepUpStepDown (patternLength : ℕ) (start stop : ℚ) (num : ℕ) :
    Option (List ℚ) :=
  if patternLength = 1 then
    none
  else
    some (List.replicate (num - 1) stop)

/-- `linspace(self, start, stop, num, buffer)`: clamps `num` to at least 1
("avoid divide by zero"), sets `diff = (stop - start) / num`, and writes
`diff * i + start` for `i = 0, …, num - 1`. -/
def linspace (start stop : ℚ) (num : ℕ) : List ℚ :=
  (List.range (max 1 num)).map
    (fun i : ℕ => (stop - start) / ((max 1 num : ℕ) : ℚ) * (i : ℚ) + start)

/-- The per-sample formula `x = 1 - ((stop - float(start)) / i) + (stop - 1)`
with `i = max(i, 1)`, shared by `logUpStepDown` and `stepUpExpDown`. -/
def logCurveSample (start stop : ℚ) (i : ℕ) : ℚ :=
  1 - (stop - start) / ((max i 1 : ℕ) : ℚ) + (stop - 1)

/-- `logUpStepDown(self, start, stop, num, buffer)`: in LFO mode
(`patternLength == 1`) the loop `for i in range(num / 2)` raises
`TypeError` (float bound) before any write — `none`; this crash is
reachable (slew mode 6 with `patternLength == 1`).  Outside LFO mode it
writes `num` log-curve samples when `stop >= start`, else `num` copies of
`stop`. -/
def logUpStepDown (patternLength : ℕ) (start stop : ℚ) (num : ℕ) :
    Option (List ℚ) :=
  if patternLength = 1 then
    none
  else if start ≤ stop then
    some ((List.range num).map (logCurveSample start stop))
  else
    some (List.replicate num stop)

/-- `stepUpExpDown(self, start, stop, num, buffer)`. -/
def stepUpExpDown (start stop : ℚ) (num : ℕ) : List ℚ :=
  if stop ≤ start then
    (List.range num).map (logCurveSample start stop)
  else
    List.replicate num stop

/-- The cosine-family sample
`round(amplitude + amplitude * cos(2 * pi * freqHz * (i + startOffset) / num) + amplitudeOffset, 4)`
shared by `smooth`, `expUpexpDown`, `sharkTooth` and `sharkToothReverse`. -/
def cosSample (piA : ℚ) (cosF : ℚ → ℚ) (freqHz amplitude amplitudeOffset : ℚ)
    (startOffset num i : ℕ) : ℚ :=
  pyRound4 (amplitude +
    amplitude * cosF (2 * piA * freqHz * ((i + startOffset : ℕ) : ℚ) / (num : ℚ)) +
    amplitudeOffset)

/-- `smooth(self, start, stop, num, buffer)`: half a cosine cycle,
`amplitude = abs((stop - start) / 2)`; rising (`start <= stop`) uses
`startOffset = num`, `amplitudeOffset = start`, falling uses
`startOffset = 0`, `amplitudeOffset = stop`. -/
def smooth (piA : ℚ) (cosF : ℚ → ℚ) (start stop : ℚ) (num : ℕ) : List ℚ :=
  let amplitude := |(stop - start) / 2|
  let startOffset : ℕ := if start ≤ stop then num else 0
  let amplitudeOffset := if start ≤ stop then start else stop
  (List.range num).map (cosSample piA cosF (1/2) amplitude amplitudeOffset startOffset num)

/-- `expUpexpDown(self, start, stop, num, buffer)`: quarter cosine cycle,
`amplitude = abs(stop - start)`; rising uses `startOffset = num * 2`,
`amplitudeOffset = start`, falling uses `startOffset = num`,
`amplitudeOffset = stop`. -/
def expUpexpDown (piA : ℚ) (cosF : ℚ → ℚ) (start stop : ℚ) (num : ℕ) : List ℚ :=
  let amplitude := |stop - start|
  let startOffset : ℕ := if start ≤ stop then num * 2 else num
  let amplitudeOffset := if start ≤ stop then start else stop
  (List.range num).map (cosSample piA cosF (1/4) amplitude amplitudeOffset startOffset num)

/-- `sharkTooth(self, start, stop, num, buffer)`: quarter cosine cycle,
`amplitude = abs(stop - start)`; rising uses `startOffset = num * 3`,
`amplitudeOffset = start - amplitude`, falling uses `startOffset = num`,
`amplitudeOffset = stop`. -/
def sharkTooth (piA : ℚ) (cosF : ℚ → ℚ) (start stop : ℚ) (num : ℕ) : List ℚ :=
  let amplitude := |stop - start|
  let startOffset : ℕ := if start ≤ stop then num * 3 else num
  let amplitudeOffset := if start ≤ stop then start - amplitude else stop
  (List.range num).map (cosSample piA cosF (1/4) amplitude amplitudeOffset startOffset num)

/-- `sharkToothReverse(self, start, stop, num, buffer)`: quarter cosine
cycle, `amplitude = abs(stop - start)`; rising uses `startOffset = num * 2`,
`amplitudeOffset = start`, falling uses `startOffset = 0`,
`amplitudeOffset = 1 - (amplitude - stop + 1)`. -/
def sharkToothReverse (piA : ℚ) (cosF : ℚ → ℚ) (start stop : ℚ) (num : ℕ) : List ℚ :=
  let amplitude := |stop - start|
  let startOffset : ℕ := if start ≤ stop then num * 2 else 0
  let amplitudeOffset := if start ≤ stop then start else 1 - (amplitude - stop + 1)
  (List.range num).map (cosSample piA cosF (1/4) amplitude amplitudeOffset startOffset num)

/-- `self.slewShapes[mode]`: dispatch over the eight shapes in source
order (`stepUpStepDown`, `linspace`, `smooth`, `expUpexpDown`,
`sharkTooth`, `sharkToothReverse`, `logUpStepDown`, `stepUpExpDown`).
`mode` is always reduced `% len(self.slewShapes)` in the source, so only
`0 ≤ mode < 8` occurs.  `none` is a call that raises (only the LFO
branches of modes 0 and 6 do); every other call returns the written
prefix. -/
def slewShapeAt (piA : ℚ) (cosF : ℚ → ℚ) (patternLength : ℕ) (mode : ℕ)
    (start stop : ℚ) (num : ℕ) : Option (List ℚ) :=
  match mode with
  | 0 => stepUpStepDown patternLength start stop num
  | 1 => some (linspace start stop num)
  | 2 => some (smooth piA cosF start stop num)
  | 3 => some (expUpexpDown piA cosF start stop num)
  | 4 => some (sharkTooth piA cosF start stop num)
  | 5 => some (sharkToothReverse piA cosF start stop num)
  | 6 => logUpStepDown patternLength start stop num
  | _ => some (stepUpExpDown start stop num)

/-- Applying a shape's sequential writes (indices `0, …, len - 1`) to a
pre-allocated buffer: the written prefix replaces the buffer's prefix,
the rest of the buffer keeps its prior contents. -/
def applyWrites (ws buf : List ℚ) : List ℚ := ws ++ buf.drop ws.length

example : linspace 0 10 5 = [0, 2, 4, 6, 8] := by
  norm_num [linspace, List.range_succ]

/-!
## Clock timing tracker and sample-rate calculator
-/

/-- `average(self, list)`: `sum(myList) / len(myList)` on a copy of the
list. -/
def average (l : List ℚ) : ℚ := l.sum / (l.length : ℚ)

/-- The clock-rate change detection condition in `main` (lines 388–393):
`self.clockStep >= CLOCK_DIFF_BUFFER_LEN and
abs(newDiffBetweenClocks - self.averageMsBetweenClocks) > MIN_CLOCK_CHANGE_DETECTION_MS`.
When (and only when) it holds, the running average is refreshed from the
window and `calculateOptimalSampleRate` is invoked.  `clockStep` is the
number of clock edges already processed (it is incremented after each
processed edge). -/
def shouldRecalculate (clockStep : ℕ) (newDiffBetweenClocks averageMsBetweenClocks : ℚ) :
    Bool :=
  decide (CLOCK_DIFF_BUFFER_LEN ≤ clockStep) &&
    decide ((MIN_CLOCK_CHANGE_DETECTION_MS : ℚ) < |newDiffBetweenClocks - averageMsBetweenClocks|)

/-- `calculateOptimalSampleRate` body for one channel: returns
`(samplesPerSec[idx], msBetweenSamples[idx])`, i.e.
`int(min(2 * (MAX_SAMPLE_RATE / division) * (MAX_CLOCK_TIME_MS / averageMsBetweenClocks), MAX_SAMPLE_RATE))`
and `int(1000 / samplesPerSec)`. -/
def calculateOptimalSampleRateChannel (averageMsBetweenClocks : ℚ)
    (outputDivision : ℕ) : ℤ × ℤ :=
  let samplesPerSec :=
    pyInt (min (2 * ((MAX_SAMPLE_RATE : ℚ) / (outputDivision : ℚ))
                  * ((MAX_CLOCK_TIME_MS : ℚ) / averageMsBetweenClocks))
               (MAX_SAMPLE_RATE : ℚ))
  (samplesPerSec, pyInt (1000 / (samplesPerSec : ℚ)))

/-!
## Playback driver (sample emission, `main` lines 404–440)

Per-channel state touched by one emission tick.  `slewBuffer` is the
channel's pre-allocated sample list; the value pulled by
`next(self.slewGeneratorObjects[idx])` is `slewBuffer[position]` because
the generator is recreated from the freshly filled buffer at every
segment start (with the cursor reset to 0) and is advanced exactly once
per in-bounds tick, in lockstep with `slewBufferPosition`.
`slewBufferSampleNum` is a Python `int` that can be negative after large
offset corrections, hence `ℤ`. -/
structure EmitState where
  outputSlewMode : ℕ
  squareOutput : ℚ
  slewBuffer : List ℚ
  slewBufferPosition : ℕ
  slewBufferSampleNum : ℤ
  previousOutputVoltage : ℚ
  bufferUnderrunCounter : ℕ
  deriving Repr, DecidableEq

/-- One emission tick for one channel (`main` lines 412–437), entered when
the channel's inter-sample delay has elapsed and the engine is running.
Returns the updated state and the voltage written to the CV output. -/
def emitTick (s : EmitState) : EmitState × ℚ :=
  if (s.slewBufferPosition : ℤ) < s.slewBufferSampleNum then
    let v := if s.outputSlewMode = 0 then s.squareOutput
             else s.slewBuffer.getD s.slewBufferPosition 0
    ({ s with previousOutputVoltage := v
              bufferUnderrunCounter := 0
              slewBufferPosition := s.slewBufferPosition + 1 }, v)
  else
    ({ s with bufferUnderrunCounter := s.bufferUnderrunCounter + 1
              slewBufferPosition := s.slewBufferPosition + 1 },
     s.previousOutputVoltage)

/-- `n` consecutive emission ticks for one channel. -/
def emitTicks (n : ℕ) (s : EmitState) : EmitState :=
  match n with
  | 0 => s
  | n + 1 => emitTicks n (emitTick s).1

/-!
## Channel step engine (`handleClockStep`)
-/

/-- The engine-wide values read by `handleClockStep`. -/
structure ClockGlobals where
  clockStep : ℕ
  unClockedMode : Bool
  averageMsBetweenClocks : ℚ
  patternLength : ℕ
  deriving Repr, DecidableEq

/-- Per-channel (`idx`) state read and written by `handleClockStep`.
`pattern` is `self.cvPatternBanks[idx][self.CvPattern]`; `slewArray` is
the written prefix of the channel's slew buffer. -/
structure ClockChannelState where
  outputDivision : ℕ
  outputSlewMode : ℕ
  samplesPerSec : ℤ
  outputVoltageFlipFlop : Bool
  bufferOverrunSamples : ℤ
  bufferSampleOffsets : ℤ
  slewBufferSampleNum : ℤ
  slewBufferPosition : ℕ
  stepPerOutput : ℕ
  nextStepPerOutput : ℕ
  squareOutput : ℚ
  slewArray : List ℚ
  pattern : List ℚ
  deriving Repr, DecidableEq

/-- The shape call made by `handleClockStep` for output `idx` raises
`TypeError` (crashing the program — no handler exists up the stack)
exactly when the channel's division is aligned, its slew mode is 6
(`logUpStepDown`) and `patternLength == 1`: slew mode 0 never reaches a
shape call (the square special case precedes it), and no other shape
raises. -/
def handleClockStepRaises (g : ClockGlobals) (ch : ClockChannelState) : Prop :=
  g.clockStep % ch.outputDivision = 0 ∧ ch.outputSlewMode = 6 ∧ g.patternLength = 1

/-- The body of `handleClockStep` (lines 478–555) for one output `idx`.
If `clockStep` is not aligned to the channel's division the channel is
untouched.  Otherwise: the LFO flip-flop toggles; when
`clockStep > CLOCK_DIFF_BUFFER_LEN` and the engine is externally clocked,
the overrun `slewBufferPosition - slewBufferSampleNum` of the finished
segment is computed and subtracted from the running
`bufferSampleOffsets` correction (else the correction is zeroed); the
next segment's target count is
`min(SLEW_BUFFER_SIZE_IN_SAMPLES, int((averageMsBetweenClocks/1000) * division * samplesPerSec - bufferSampleOffsets))`;
the buffer (or the single square value) is refilled from the voltage
extremes (LFO mode) or the pattern steps; the cursor resets to 0 and the
step indices advance modulo `patternLength`.  The target count passed to
a shape is a Python `int`; a non-positive count makes every `range` loop
in the shapes (and `max(1, num)` in `linspace`) behave exactly as
`Int.toNat` followed by the `ℕ` embeddings.

A raising shape call (see `handleClockStepRaises`) propagates out of
`handleClockStep` and `main` — there is no handler — and crashes the
program before the `slewArray` assignment, so the `.getD` fallback below
is never observed; this function describes the committed state of the
non-raising executions.  The fields written before the shape call
(flip-flop, overrun, offset correction, target count) are mutated in the
source even in a raising execution. -/
def handleClockStepChannel (piA : ℚ) (cosF : ℚ → ℚ) (g : ClockGlobals)
    (ch : ClockChannelState) : ClockChannelState :=
  if g.clockStep % ch.outputDivision = 0 then
    let flipFlop := !ch.outputVoltageFlipFlop
    let overrun : ℤ :=
      if CLOCK_DIFF_BUFFER_LEN < g.clockStep ∧ g.unClockedMode = false then
        (ch.slewBufferPosition : ℤ) - ch.slewBufferSampleNum
      else ch.bufferOverrunSamples
    let offsets : ℤ :=
      if CLOCK_DIFF_BUFFER_LEN < g.clockStep ∧ g.unClockedMode = false then
        ch.bufferSampleOffsets - overrun
      else 0
    let sampleNum : ℤ :=
      min SLEW_BUFFER_SIZE_IN_SAMPLES
        (pyInt ((g.averageMsBetweenClocks / 1000) * (ch.outputDivision : ℚ)
                  * (ch.samplesPerSec : ℚ) - (offsets : ℚ)))
    let square :=
      if ch.outputSlewMode = 0 then
        if g.patternLength = 1 then voltageExtremes.getD (BOOL_DICT flipFlop) 0
        else ch.pattern.getD ch.stepPerOutput 0
      else ch.squareOutput
    let slew :=
      if ch.outputSlewMode = 0 then ch.slewArray
      else if g.patternLength = 1 then
        (slewShapeAt piA cosF g.patternLength ch.outputSlewMode
          (voltageExtremes.getD (BOOL_DICT flipFlop) 0)
          (voltageExtremes.getD (BOOL_DICT (!flipFlop)) 0)
          sampleNum.toNat).getD ch.slewArray
      else
        (slewShapeAt piA cosF g.patternLength ch.outputSlewMode
          (ch.pattern.getD ch.stepPerOutput 0)
          (ch.pattern.getD ch.nextStepPerOutput 0)
          sampleNum.toNat).getD ch.slewArray
    let step := (ch.stepPerOutput + 1) % g.patternLength
    { ch with outputVoltageFlipFlop := flipFlop
              bufferOverrunSamples := overrun
              bufferSampleOffsets := offsets
              slewBufferSampleNum := sampleNum
              squareOutput := square
              slewArray := slew
              slewBufferPosition := 0
              stepPerOutput := step
              nextStepPerOutput := (step + 1) % g.patternLength }
  else ch

/-!
## Reset on clock silence (`main` lines 457–476)
-/

/-- The engine-wide state touched by the reset-on-silence branch of
`main`.  `outputVoltages` models the six CV outputs; `cv.off()` drives an
output to 0 V.  Timestamps are milliseconds; `ticks_diff` is modelled as
integer subtraction. -/
structure EngineState where
  unClockedMode : Bool
  clockStep : ℕ
  stepPerOutput : List ℕ
  outputVoltages : List ℚ
  screenRefreshNeeded : Bool
  pendingSaveState : Bool
  running : Bool
  bufferUnderrunCounter : List ℕ
  bufferOverrunSamples : List ℤ
  slewBufferPosition : List ℕ
  bufferSampleOffsets : List ℤ
  lastDinTrigger : ℤ
  deriving Repr, DecidableEq

/-- The reset branch of `main`: if the engine is externally clocked, has
been clocked at least once, and no edge arrived on the digital input for
more than `resetTimeout` milliseconds, every step index is zeroed, every
output is driven off, the engine leaves the running state and the
underrun/overrun/cursor/offset arrays are cleared; otherwise the state is
unchanged. -/
def resetCheck (now : ℤ) (s : EngineState) : EngineState :=
  if s.unClockedMode = false ∧ s.clockStep ≠ 0 ∧
      (resetTimeout : ℤ) < now - s.lastDinTrigger then
    { s with stepPerOutput := List.replicate 6 0
             screenRefreshNeeded := true
             pendingSaveState := true
             running := false
             outputVoltages := List.replicate 6 0
             bufferUnderrunCounter := List.replicate 6 0
             bufferOverrunSamples := List.replicate 6 0
             slewBufferPosition := List.replicate 6 0
             bufferSampleOffsets := List.replicate 6 0 }
  else s

/-!
## Pattern bank regeneration (`generateNewRandomCVPattern`)

`generateRandomPattern` draws `length` uniform random values; the only
failure mode is an exception (allocation failure) raised during one such
call.  Each call is modelled by an oracle `gen : ℕ → Option Pattern`
indexed by the call number within one `generateNewRandomCVPattern`
invocation: `some p` is a successfully built pattern, `none` is a raised
exception.  The `try` block returns `True` on completion and the
`except` handler returns `False`; mutations performed before the raising
call persist (Python lists are updated in place). -/

/-- A CV pattern: `MAX_STEP_LENGTH` voltages. -/
abbrev Pattern := List ℚ

/-- The `new=True` loop: `for pattern in self.cvPatternBanks: pattern.append(gen(...))`,
aborted at the first raising call. -/
def regenAppend (gen : ℕ → Option Pattern) (k : ℕ) :
    List (List Pattern) → Bool × List (List Pattern)
  | [] => (true, [])
  | b :: rest =>
    match gen k with
    | none => (false, b :: rest)
    | some p =>
      let r := regenAppend gen (k + 1) rest
      (r.1, (b ++ [p]) :: r.2)

/-- The `new=False` loop:
`for pattern in self.cvPatternBanks: pattern[self.CvPattern] = gen(...)`,
aborted at the first raising call. -/
def regenUpdate (gen : ℕ → Option Pattern) (cvPattern k : ℕ) :
    List (List Pattern) → Bool × List (List Pattern)
  | [] => (true, [])
  | b :: rest =>
    match gen k with
    | none => (false, b :: rest)
    | some p =>
      let r := regenUpdate gen cvPattern (k + 1) rest
      (r.1, b.set cvPattern p :: r.2)

/-- `generateNewRandomCVPattern(self, new, activePatternOnly)`: returns
`(True, updated banks)` when every generation call succeeds, and
`(False, banks as mutated so far)` when one raises. -/
def generateNewRandomCVPattern (gen : ℕ → Option Pattern)
    (cvPatternBanks : List (List Pattern)) (selectedOutput cvPattern : ℕ)
    (new activePatternOnly : Bool) : Bool × List (List Pattern) :=
  if new then
    if activePatternOnly then
      match gen 0 with
      | none => (false, cvPatternBanks)
      | some p =>
        (true, cvPatternBanks.set selectedOutput
                 (cvPatternBanks.getD selectedOutput [] ++ [p]))
    else regenAppend gen 0 cvPatternBanks
  else
    if activePatternOnly then
      match gen 0 with
      | none => (false, cvPatternBanks)
      | some p =>
        (true, cvPatternBanks.set selectedOutput
                 ((cvPatternBanks.getD selectedOutput []).set cvPattern p))
    else regenUpdate gen cvPattern 0 cvPatternBanks

/-!
## Helper lemmas
-/

theorem pyInt_of_nonneg {q : ℚ} (h : 0 ≤ q) : pyInt q = ⌊q⌋ := by
  simp [pyInt, h]

theorem floor_min_intCast (x : ℚ) (n : ℤ) : ⌊min x (n : ℚ)⌋ = min ⌊x⌋ n := by
  rcases le_total x (n : ℚ) with h | h
  · rw [min_eq_left h, eq_comm, min_eq_left]
    calc ⌊x⌋ ≤ ⌊(n : ℚ)⌋ := Int.floor_le_floor h
    _ = n := Int.floor_intCast n
  · rw [min_eq_right h, Int.floor_intCast, eq_comm, min_eq_right]
    exact Int.le_floor.mpr h

theorem getD_range_map (f : ℕ → ℚ) {i m : ℕ} (h : i < m) (d : ℚ) :
    ((List.range m).map f).getD i d = f i := by
  have hlen : i < ((List.range m).map f).length := by simpa using h
  rw [List.getD_eq_getElem _ _ hlen, List.getElem_map, List.getElem_range]

/-!
## Claims
-/

/-- C2: for every channel, after a sample-rate recalculation with average
inter-clock interval `avg > 0` and division `1 ≤ d ≤ MAX_OUTPUT_DENOMINATOR`
(with `avg` within the clamp `MAX_CLOCK_TIME_MS`), the computed rate is
`min(MAX_SAMPLE_RATE, ⌊2 * (MAX_SAMPLE_RATE / d) * (MAX_CLOCK_TIME_MS / avg)⌋)`
and the inter-sample delay is `⌊1000 / samplesPerSec⌋`. -/
theorem C2_optimalSampleRate (avg : ℚ) (d : ℕ) (h1 : 0 < avg) (h2 : 1 ≤ d) :
    (calculateOptimalSampleRateChannel avg d).1 =
      min (MAX_SAMPLE_RATE : ℤ)
        ⌊2 * ((MAX_SAMPLE_RATE : ℚ) / (d : ℚ)) * ((MAX_CLOCK_TIME_MS : ℚ) / avg)⌋ ∧
    (d ≤ MAX_OUTPUT_DENOMINATOR → avg ≤ (MAX_CLOCK_TIME_MS : ℚ) →
      (calculateOptimalSampleRateChannel avg d).2 =
        ⌊(1000 : ℚ) / (((calculateOptimalSampleRateChannel avg d).1 : ℤ) : ℚ)⌋) := by
  have hd0 : (0 : ℚ) < (d : ℚ) := by exact_mod_cast h2
  have hx : (0 : ℚ) < 2 * ((MAX_SAMPLE_RATE : ℚ) / (d : ℚ)) * ((MAX_CLOCK_TIME_MS : ℚ) / avg) := by
    have : (0 : ℚ) < (MAX_SAMPLE_RATE : ℚ) := by norm_num [MAX_SAMPLE_RATE]
    have : (0 : ℚ) < (MAX_CLOCK_TIME_MS : ℚ) := by norm_num [MAX_CLOCK_TIME_MS]
    positivity
  have hfst : (calculateOptimalSampleRateChannel avg d).1 =
      min (MAX_SAMPLE_RATE : ℤ)
        ⌊2 * ((MAX_SAMPLE_RATE : ℚ) / (d : ℚ)) * ((MAX_CLOCK_TIME_MS : ℚ) / avg)⌋ := by
    unfold calculateOptimalSampleRateChannel
    rw [pyInt_of_nonneg (le_min hx.le (by norm_num [MAX_SAMPLE_RATE]))]
    rw [show ((MAX_SAMPLE_RATE : ℚ)) = (((MAX_SAMPLE_RATE : ℤ)) : ℚ) by push_cast; ring]
    rw [floor_min_intCast, min_comm]
  refine ⟨hfst, fun h3 h4 => ?_⟩
  -- the computed rate is at least 8, hence positive, so int() is floor
  have hbound : (8 : ℚ) ≤ 2 * ((MAX_SAMPLE_RATE : ℚ) / (d : ℚ)) * ((MAX_CLOCK_TIME_MS : ℚ) / avg) := by
    have hd8 : (d : ℚ) ≤ 8 := by
      have : d ≤ 8 := by simpa [MAX_OUTPUT_DENOMINATOR] using h3
      exact_mod_cast this
    rw [show (2 * ((MAX_SAMPLE_RATE : ℚ) / (d : ℚ)) * ((MAX_CLOCK_TIME_MS : ℚ) / avg)) =
        (240000 : ℚ) / ((d : ℚ) * avg) by
      field_simp [MAX_SAMPLE_RATE, MAX_CLOCK_TIME_MS]; ring]
    rw [le_div_iff₀ (by positivity)]
    have h4' : avg ≤ 3750 := by simpa [MAX_CLOCK_TIME_MS] using h4
    nlinarith [mul_le_mul hd8 h4' h1.le (by norm_num : (0 : ℚ) ≤ 8)]
  have hsps : (8 : ℤ) ≤ (calculateOptimalSampleRateChannel avg d).1 := by
    rw [hfst]
    refine le_min (by norm_num [MAX_SAMPLE_RATE]) ?_
    exact Int.le_floor.mpr (by exact_mod_cast hbound)
  have hspsq : (0 : ℚ) < (((calculateOptimalSampleRateChannel avg d).1 : ℤ) : ℚ) := by
    exact_mod_cast lt_of_lt_of_le (by norm_num) hsps
  show pyInt ((1000 : ℚ) / (((calculateOptimalSampleRateChannel avg d).1 : ℤ) : ℚ)) = _
  rw [pyInt_of_nonneg (by positivity)]

/-- C2 witness: at `avg = 1000 ms`, division 1, the rate is
`min(32, ⌊240⌋) = 32` and the delay is `⌊1000 / 32⌋ = 31`. -/
theorem C2_optimalSampleRate_witness :
    (0 : ℚ) < 1000 ∧ 1 ≤ 1 ∧ 1 ≤ MAX_OUTPUT_DENOMINATOR ∧
      (1000 : ℚ) ≤ (MAX_CLOCK_TIME_MS : ℚ) ∧
    ((calculateOptimalSampleRateChannel 1000 1).1 =
      min (MAX_SAMPLE_RATE : ℤ)
        ⌊2 * ((MAX_SAMPLE_RATE : ℚ) / ((1 : ℕ) : ℚ)) * ((MAX_CLOCK_TIME_MS : ℚ) / 1000)⌋ ∧
    (calculateOptimalSampleRateChannel 1000 1).2 =
      ⌊(1000 : ℚ) / (((calculateOptimalSampleRateChannel 1000 1).1 : ℤ) : ℚ)⌋) :=
  ⟨by norm_num, le_refl 1, by norm_num [MAX_OUTPUT_DENOMINATOR],
   by norm_num [MAX_CLOCK_TIME_MS],
   (C2_optimalSampleRate 1000 1 (by norm_num) (le_refl 1)).1,
   (C2_optimalSampleRate 1000 1 (by norm_num) (le_refl 1)).2
     (by norm_num [MAX_OUTPUT_DENOMINATOR]) (by norm_num [MAX_CLOCK_TIME_MS])⟩

/-- C7: a processed clock edge triggers recomputation of the average and
of the sample rates iff at least `CLOCK_DIFF_BUFFER_LEN` (5) edges were
already processed and the new clamped interval differs from the running
average by more than `MIN_CLOCK_CHANGE_DETECTION_MS` (100 ms); `average`
is the arithmetic mean, so a `[100,100,100,100,100]` window averages to
100 and a sixth interval of 400 triggers recalculation. -/
theorem C7_clockChangeDetection :
    (∀ (clockStep : ℕ) (newDiff avg : ℚ),
      shouldRecalculate clockStep newDiff avg = true ↔
        (CLOCK_DIFF_BUFFER_LEN ≤ clockStep ∧
          (MIN_CLOCK_CHANGE_DETECTION_MS : ℚ) < |newDiff - avg|)) ∧
    CLOCK_DIFF_BUFFER_LEN = 5 ∧ MIN_CLOCK_CHANGE_DETECTION_MS = 100 ∧
    average (List.replicate 5 (100 : ℚ)) = 100 ∧
    shouldRecalculate 5 400 100 = true := by
  refine ⟨fun clockStep newDiff avg => ?_, rfl, rfl, ?_, ?_⟩
  · simp [shouldRecalculate]
  · simp [average, List.sum_replicate]
    norm_num
  · simp [shouldRecalculate, CLOCK_DIFF_BUFFER_LEN, MIN_CLOCK_CHANGE_DETECTION_MS]
    norm_num

/-- C6: `linspace` fills, for `m = max 1 num`, entry `i` with
`start + i * (stop - start) / m` for all `i < m`; hence the first entry
is `start`, the prefix is strictly monotone with the sign of
`stop - start`, no division by zero occurs (the count is clamped to
`≥ 1`), and `linspace 0 10 5` yields `[0, 2, 4, 6, 8]`. -/
theorem C6_linspace (start stop : ℚ) (num : ℕ) :
    linspace start stop num =
      (List.range (max 1 num)).map
        (fun i : ℕ => start + (i : ℚ) * (stop - start) / ((max 1 num : ℕ) : ℚ)) ∧
    (linspace start stop num).getD 0 0 = start ∧
    (start < stop → ∀ i j : ℕ, i < j → j < max 1 num →
      (linspace start stop num).getD i 0 < (linspace start stop num).getD j 0) ∧
    (stop < start → ∀ i j : ℕ, i < j → j < max 1 num →
      (linspace start stop num).getD j 0 < (linspace start stop num).getD i 0) ∧
    linspace 0 10 5 = [0, 2, 4, 6, 8] := by
  have hm : 0 < max 1 num := lt_of_lt_of_le one_pos (le_max_left 1 num)
  have hmq : (0 : ℚ) < ((max 1 num : ℕ) : ℚ) := by exact_mod_cast hm
  have hget : ∀ i : ℕ, i < max 1 num →
      (linspace start stop num).getD i 0 =
        (stop - start) / ((max 1 num : ℕ) : ℚ) * (i : ℚ) + start := by
    intro i hi
    unfold linspace
    exact getD_range_map _ hi 0
  refine ⟨?_, ?_, ?_, ?_, ?_⟩
  · unfold linspace
    refine List.map_congr_left (fun i _ => ?_)
    ring
  · rw [hget 0 hm]
    simp
  · intro hlt i j hij hj
    rw [hget i (hij.trans hj), hget j hj]
    have hd : (0 : ℚ) < (stop - start) / ((max 1 num : ℕ) : ℚ) :=
      div_pos (by linarith) hmq
    have : ((i : ℚ)) < (j : ℚ) := by exact_mod_cast hij
    nlinarith
  · intro hlt i j hij hj
    rw [hget i (hij.trans hj), hget j hj]
    have hd : (stop - start) / ((max 1 num : ℕ) : ℚ) < 0 :=
      div_neg_of_neg_of_pos (by linarith) hmq
    have : ((i : ℚ)) < (j : ℚ) := by exact_mod_cast hij
    nlinarith
  · norm_num [linspace, List.range_succ]

/-- C6 witness: the strict-monotonicity clause applied at
`linspace 0 10 5`, indices 0 and 1. -/
theorem C6_linspace_witness :
    (0 : ℚ) < 10 ∧ (0 : ℕ) < 1 ∧ 1 < max 1 5 ∧
    (linspace 0 10 5).getD 0 0 < (linspace 0 10 5).getD 1 0 :=
  ⟨by norm_num, by norm_num, by norm_num,
   (C6_linspace 0 10 5).2.2.1 (by norm_num) 0 1 (by norm_num) (by norm_num)⟩

theorem getD_drop (buf : List ℚ) (k : ℕ) (h : k < buf.length) :
    (buf.drop k).getD 0 0 = buf.getD k 0 := by
  have h0 : 0 < (buf.drop k).length := by
    rw [List.length_drop]; omega
  rw [List.getD_eq_getElem _ _ h0, List.getD_eq_getElem _ _ h]
  simp

/-- C5 counterexample: in LFO mode the step shape raises `TypeError`
(`range(num / 2)` receives the Python float `2.0`) and writes nothing —
it does not fill `num/2` entries with `start` and `num/2` with `stop`. -/
theorem C5_counterexample :
    stepUpStepDown 1 0 10 4 = none ∧
    (none : Option (List ℚ)) ≠
      some (List.replicate 2 (0 : ℚ) ++ List.replicate 2 (10 : ℚ)) := by
  exact ⟨rfl, by simp⟩

/-- C5 (amended): outside LFO mode the step shape writes exactly the
first `num - 1` buffer entries, each with the value `stop`, leaving the
`num`-th slot holding its prior content; in LFO mode
(`patternLength == 1`) the call raises `TypeError` before writing
anything (a branch the engine never reaches, since slew mode 0 is
special-cased to the precomputed square output). -/
theorem C5_stepUpStepDown (patternLength : ℕ) (start stop : ℚ) (num : ℕ)
    (buf : List ℚ) :
    (patternLength ≠ 1 →
      stepUpStepDown patternLength start stop num =
        some (List.replicate (num - 1) stop) ∧
      (1 ≤ num → num ≤ buf.length →
        (applyWrites ((stepUpStepDown patternLength start stop num).getD [])
            buf).getD (num - 1) 0 =
          buf.getD (num - 1) 0)) ∧
    (patternLength = 1 → stepUpStepDown patternLength start stop num = none) := by
  constructor
  · intro hpl
    have hdef : stepUpStepDown patternLength start stop num =
        some (List.replicate (num - 1) stop) := by
      simp [stepUpStepDown, hpl]
    refine ⟨hdef, fun h1 hlen => ?_⟩
    rw [hdef, Option.getD_some]
    unfold applyWrites
    rw [List.length_replicate,
      List.getD_append_right _ _ _ _ (by rw [List.length_replicate]),
      List.length_replicate, Nat.sub_self, getD_drop _ _ (by omega)]
  · intro hpl
    simp [stepUpStepDown, hpl]

/-- C5 witness: `num = 3` outside LFO mode over the buffer `[7, 7, 7]`:
two entries become `stop = 5` and the third keeps its prior value 7;
at `patternLength = 1` the call raises. -/
theorem C5_stepUpStepDown_witness :
    (8 : ℕ) ≠ 1 ∧ 1 ≤ 3 ∧ 3 ≤ ([7, 7, 7] : List ℚ).length ∧
    stepUpStepDown 8 2 5 3 = some (List.replicate 2 (5 : ℚ)) ∧
    (applyWrites ((stepUpStepDown 8 2 5 3).getD []) [7, 7, 7]).getD 2 0 =
      ([7, 7, 7] : List ℚ).getD 2 0 ∧
    stepUpStepDown 1 2 5 3 = none := by
  have h := (C5_stepUpStepDown 8 2 5 3 [7, 7, 7]).1 (by norm_num)
  have h2 := (C5_stepUpStepDown 1 2 5 3 [7, 7, 7]).2 rfl
  exact ⟨by norm_num, by norm_num, by norm_num, h.1,
    h.2 (by norm_num) (by norm_num), h2⟩

theorem slew_buffer_size_eq : SLEW_BUFFER_SIZE_IN_SAMPLES = 960 := by
  have : (((MAX_CLOCK_TIME_MS : ℚ) / 1000) * MAX_SAMPLE_RATE * MAX_OUTPUT_DENOMINATOR) =
      (960 : ℚ) := by
    norm_num [MAX_CLOCK_TIME_MS, MAX_SAMPLE_RATE, MAX_OUTPUT_DENOMINATOR]
  rw [SLEW_BUFFER_SIZE_IN_SAMPLES, this, pyInt_of_nonneg (by norm_num)]
  norm_num [Int.floor_intCast]

/-- C3 counterexample: `linspace` (the linear shape) called with a
requested count of 0 does not write nothing — it clamps the count to 1
and writes one entry (at index 0 ≥ 0), contradicting the claim that
every shape writes exactly `n` entries and treats `n == 0` as a no-op. -/
theorem C3_counterexample :
    slewShapeAt 0 (fun _ => 0) 8 1 0 10 0 = some (linspace 0 10 0) ∧
    (linspace 0 10 0).length = 1 ∧ (1 : ℕ) ≠ 0 := by
  refine ⟨rfl, ?_, by norm_num⟩
  simp [linspace]

/-- C3 (amended): a shape call that returns writes only at consecutive
indices `0, …, len - 1` with `len ≤ max 1 n` (so never beyond the buffer
capacity when `n ≤ SLEW_BUFFER_SIZE_IN_SAMPLES`); every returning shape
except `linspace` writes at most `n` entries and nothing when `n = 0`,
while `linspace` clamps the count and writes exactly `max 1 n` entries;
the exact counts are `n - 1` for the step shape (which only returns
outside LFO mode) and `n` for every other returning shape.  The step
shape and `logUpStepDown` in LFO mode do not return: they raise
`TypeError` (`range` receives a Python float `n / 2`) before writing
anything; every other call returns. -/
theorem C3_shapeWriteBounds (piA : ℚ) (cosF : ℚ → ℚ) (pl mode : ℕ)
    (start stop : ℚ) (num : ℕ) (hmode : mode < 8) :
    (∀ ws, slewShapeAt piA cosF pl mode start stop num = some ws →
      (ws.length ≤ max 1 num ∧
       ((num : ℤ) ≤ SLEW_BUFFER_SIZE_IN_SAMPLES →
         (ws.length : ℤ) ≤ SLEW_BUFFER_SIZE_IN_SAMPLES) ∧
       (mode ≠ 1 → ws.length ≤ num) ∧
       (mode ≠ 1 → num = 0 → ws = []) ∧
       (mode = 1 → ws.length = max 1 num) ∧
       (mode = 0 → ws.length = num - 1) ∧
       ((mode = 2 ∨ mode = 3 ∨ mode = 4 ∨ mode = 5 ∨ mode = 6 ∨ mode = 7) →
         ws.length = num))) ∧
    ((mode = 0 ∨ mode = 6) → pl = 1 →
      slewShapeAt piA cosF pl mode start stop num = none) ∧
    (¬((mode = 0 ∨ mode = 6) ∧ pl = 1) →
      (slewShapeAt piA cosF pl mode start stop num).isSome = true) := by
  have h960 : SLEW_BUFFER_SIZE_IN_SAMPLES = 960 := slew_buffer_size_eq
  have hcount : ∀ ws, slewShapeAt piA cosF pl mode start stop num = some ws →
      ws.length = if mode = 1 then max 1 num
                  else if mode = 0 then num - 1 else num := by
    intro ws hws
    interval_cases mode <;>
      simp only [slewShapeAt, stepUpStepDown, linspace, smooth, expUpexpDown,
        sharkTooth, sharkToothReverse, logUpStepDown, stepUpExpDown] at hws <;>
      (try split_ifs at hws) <;>
      (first
        | exact Option.noConfusion hws
        | (injection hws with hws; subst hws;
           simp [List.length_map, List.length_range, List.length_replicate]))
  have hnone : (mode = 0 ∨ mode = 6) → pl = 1 →
      slewShapeAt piA cosF pl mode start stop num = none := by
    rintro (rfl | rfl) hpl <;>
      simp [slewShapeAt, stepUpStepDown, logUpStepDown, hpl]
  have hsome : ¬((mode = 0 ∨ mode = 6) ∧ pl = 1) →
      (slewShapeAt piA cosF pl mode start stop num).isSome = true := by
    intro hn
    interval_cases mode <;>
      simp only [slewShapeAt, stepUpStepDown, linspace, smooth, expUpexpDown,
        sharkTooth, sharkToothReverse, logUpStepDown, stepUpExpDown] <;>
      (try split_ifs) <;> simp_all
  refine ⟨fun ws hws => ?_, hnone, hsome⟩
  have hc := hcount ws hws
  refine ⟨?_, ?_, ?_, ?_, ?_, ?_, ?_⟩
  · split_ifs at hc <;> omega
  · intro hcap
    rw [h960] at hcap ⊢
    split_ifs at hc <;> omega
  · intro h1
    rw [if_neg h1] at hc
    split_ifs at hc <;> omega
  · intro h1 h0
    rw [if_neg h1] at hc
    subst h0
    have hz : ws.length = 0 := by split_ifs at hc <;> omega
    exact List.length_eq_zero.mp hz
  · intro h1
    rwa [if_pos h1] at hc
  · intro h0
    subst h0
    simpa using hc
  · intro h
    have hm1 : mode ≠ 1 := by rcases h with h | h | h | h | h | h <;> omega
    have hm0 : mode ≠ 0 := by rcases h with h | h | h | h | h | h <;> omega
    rwa [if_neg hm1, if_neg hm0] at hc

/-- C3 witness: the `smooth` shape (mode 2) with `n = 5` returns and
writes exactly 5 entries. -/
theorem C3_shapeWriteBounds_witness :
    (2 : ℕ) < 8 ∧
    slewShapeAt 0 (fun _ => 0) 8 2 0 10 5 = some (smooth 0 (fun _ => 0) 0 10 5) ∧
    (smooth 0 (fun _ => 0) 0 10 5).length = 5 := by
  refine ⟨by norm_num, rfl, ?_⟩
  exact ((C3_shapeWriteBounds 0 (fun _ => 0) 8 2 0 10 5 (by norm_num)).1
    (smooth 0 (fun _ => 0) 0 10 5) rfl).2.2.2.2.2.2 (Or.inl rfl)

/-- C4 counterexample: a square-mode channel (`outputSlewModes[idx] == 0`)
with a buffered sample available emits the precomputed `squareOutputs`
value, not the buffered sample at the cursor. -/
theorem C4_counterexample :
    (emitTick { outputSlewMode := 0, squareOutput := 2, slewBuffer := [1],
                slewBufferPosition := 0, slewBufferSampleNum := 1,
                previousOutputVoltage := 0, bufferUnderrunCounter := 0 }).2 = 2 ∧
    (([1] : List ℚ).getD 0 0 = 1) ∧ (2 : ℚ) ≠ 1 := by
  refine ⟨?_, by norm_num, by norm_num⟩
  simp [emitTick]

/-- C4 (amended): on an in-bounds emission tick (`cursor < targetSampleCount`)
the cursor advances by one, the underrun counter resets to 0, the emitted
voltage is the buffered sample at the cursor for every non-square slew
mode (a square-mode channel instead emits the precomputed `squareOutputs`
value), and the emitted voltage is recorded as the last output; on every
tick at or past the boundary the emitted voltage is the recorded last
output, held unchanged, and the underrun counter increases by exactly 1. -/
theorem C4_emission (s : EmitState) :
    ((s.slewBufferPosition : ℤ) < s.slewBufferSampleNum →
      ((emitTick s).1.slewBufferPosition = s.slewBufferPosition + 1 ∧
       (emitTick s).1.bufferUnderrunCounter = 0 ∧
       (s.outputSlewMode ≠ 0 →
         (emitTick s).2 = s.slewBuffer.getD s.slewBufferPosition 0) ∧
       (s.outputSlewMode = 0 → (emitTick s).2 = s.squareOutput) ∧
       (emitTick s).1.previousOutputVoltage = (emitTick s).2)) ∧
    (¬ (s.slewBufferPosition : ℤ) < s.slewBufferSampleNum →
      ((emitTick s).2 = s.previousOutputVoltage ∧
       (emitTick s).1.previousOutputVoltage = s.previousOutputVoltage ∧
       (emitTick s).1.bufferUnderrunCounter = s.bufferUnderrunCounter + 1 ∧
       (emitTick s).1.slewBufferPosition = s.slewBufferPosition + 1)) := by
  constructor
  · intro h
    by_cases hm : s.outputSlewMode = 0 <;>
      simp [emitTick, h, hm]
  · intro h
    simp [emitTick, h]

/-- C4 witness: a non-square channel with one buffered sample emits it
in bounds; then (cursor at the boundary) the next tick holds the voltage
and counts an underrun. -/
theorem C4_emission_witness :
    (((0 : ℕ) : ℤ) < 1 ∧
      (emitTick { outputSlewMode := 1, squareOutput := 0, slewBuffer := [3],
                  slewBufferPosition := 0, slewBufferSampleNum := 1,
                  previousOutputVoltage := 0, bufferUnderrunCounter := 0 }).2 =
        ([3] : List ℚ).getD 0 0) ∧
    (¬ ((1 : ℕ) : ℤ) < 1 ∧
      (emitTick { outputSlewMode := 1, squareOutput := 0, slewBuffer := [3],
                  slewBufferPosition := 1, slewBufferSampleNum := 1,
                  previousOutputVoltage := 3, bufferUnderrunCounter := 0
                  } : EmitState × ℚ).1.bufferUnderrunCounter = 0 + 1) :=
  ⟨⟨by norm_num,
    ((C4_emission _).1 (by norm_num)).2.2.1 (by norm_num)⟩,
   ⟨by norm_num,
    ((C4_emission { outputSlewMode := 1, squareOutput := 0, slewBuffer := [3],
                    slewBufferPosition := 1, slewBufferSampleNum := 1,
                    previousOutputVoltage := 3, bufferUnderrunCounter := 0 }).2
      (by norm_num)).2.2.1⟩⟩

/-- C1 counterexample: with a steady 1000 ms clock, division 1, sample
rate 32, zero prior offset and a previous segment that ended with the
cursor at 35 against a target of 32 (overrun `d = 3`), the next target is
35 — the code *adds* the overrun to the nominal count
`⌊(1000/1000)·1·32⌋ = 32`; the claimed value `32 - 3 = 29` is wrong. -/
theorem C1_counterexample :
    (handleClockStepChannel 0 (fun _ => 0)
        { clockStep := 6, unClockedMode := false, averageMsBetweenClocks := 1000,
          patternLength := 8 }
        { outputDivision := 1, outputSlewMode := 1, samplesPerSec := 32,
          outputVoltageFlipFlop := true, bufferOverrunSamples := 0,
          bufferSampleOffsets := 0, slewBufferSampleNum := 32,
          slewBufferPosition := 35, stepPerOutput := 0, nextStepPerOutput := 1,
          squareOutput := 0, slewArray := [],
          pattern := [1, 2, 3, 4, 5, 6, 7, 8] }).slewBufferSampleNum = 35 ∧
    (35 : ℤ) ≠ ⌊((1000 : ℚ) / 1000) * ((1 : ℕ) : ℚ) * ((32 : ℤ) : ℚ)⌋ - 3 := by
  constructor
  · have h960 := slew_buffer_size_eq
    simp only [handleClockStepChannel]
    norm_num [CLOCK_DIFF_BUFFER_LEN, h960, pyInt]
  · rw [show (((1000 : ℚ) / 1000) * ((1 : ℕ) : ℚ) * ((32 : ℤ) : ℚ)) = ((32 : ℤ) : ℚ) by
        push_cast; norm_num,
      Int.floor_intCast]
    norm_num

/-- C1 (amended): at a division-aligned clock tick in clocked mode with
`clockStep > CLOCK_DIFF_BUFFER_LEN`, if the previous segment ended with
the cursor exceeding its target by `d > 0` and the running sample-offset
correction was zero, then the recorded overrun is `d` and the next
segment's target is the nominal count
`⌊(averageMsBetweenClocks/1000) · division · samplesPerSec⌋` *increased*
by exactly `d` (then clamped to the buffer capacity). -/
theorem C1_overrunFeedback (piA : ℚ) (cosF : ℚ → ℚ) (g : ClockGlobals)
    (ch : ClockChannelState) (d : ℤ)
    (halign : g.clockStep % ch.outputDivision = 0)
    (hstep : CLOCK_DIFF_BUFFER_LEN < g.clockStep)
    (hclocked : g.unClockedMode = false)
    (hoff : ch.bufferSampleOffsets = 0)
    (hover : (ch.slewBufferPosition : ℤ) = ch.slewBufferSampleNum + d)
    (hd : 0 < d)
    (hnom : 0 ≤ g.averageMsBetweenClocks / 1000 * (ch.outputDivision : ℚ) *
      (ch.samplesPerSec : ℚ)) :
    (handleClockStepChannel piA cosF g ch).bufferOverrunSamples = d ∧
    (handleClockStepChannel piA cosF g ch).slewBufferSampleNum =
      min SLEW_BUFFER_SIZE_IN_SAMPLES
        (⌊g.averageMsBetweenClocks / 1000 * (ch.outputDivision : ℚ) *
            (ch.samplesPerSec : ℚ)⌋ + d) := by
  have hcond : CLOCK_DIFF_BUFFER_LEN < g.clockStep ∧ g.unClockedMode = false :=
    ⟨hstep, hclocked⟩
  have hovd : (ch.slewBufferPosition : ℤ) - ch.slewBufferSampleNum = d := by omega
  unfold handleClockStepChannel
  rw [if_pos halign]
  simp only [if_pos hcond, hovd, hoff, zero_sub]
  refine ⟨by trivial, ?_⟩
  have harg : g.averageMsBetweenClocks / 1000 * (ch.outputDivision : ℚ) *
      (ch.samplesPerSec : ℚ) - ((-d : ℤ) : ℚ) =
      g.averageMsBetweenClocks / 1000 * (ch.outputDivision : ℚ) *
        (ch.samplesPerSec : ℚ) + ((d : ℤ) : ℚ) := by push_cast; ring
  have hdq : (1 : ℚ) ≤ ((d : ℤ) : ℚ) := by exact_mod_cast hd
  rw [harg, pyInt_of_nonneg (by linarith), Int.floor_add_int]

/-- C1 witness: the amended statement at the concrete state of the
counterexample — overrun 3 and next target `min 960 (32 + 3) = 35`. -/
theorem C1_overrunFeedback_witness :
    ((6 : ℕ) % 1 = 0 ∧ CLOCK_DIFF_BUFFER_LEN < 6 ∧ (0 : ℤ) < 3 ∧
      (handleClockStepChannel 0 (fun _ => 0)
        { clockStep := 6, unClockedMode := false, averageMsBetweenClocks := 1000,
          patternLength := 8 }
        { outputDivision := 1, outputSlewMode := 1, samplesPerSec := 32,
          outputVoltageFlipFlop := true, bufferOverrunSamples := 0,
          bufferSampleOffsets := 0, slewBufferSampleNum := 32,
          slewBufferPosition := 35, stepPerOutput := 0, nextStepPerOutput := 1,
          squareOutput := 0, slewArray := [],
          pattern := [1, 2, 3, 4, 5, 6, 7, 8] }).bufferOverrunSamples = 3 ∧
      (handleClockStepChannel 0 (fun _ => 0)
        { clockStep := 6, unClockedMode := false, averageMsBetweenClocks := 1000,
          patternLength := 8 }
        { outputDivision := 1, outputSlewMode := 1, samplesPerSec := 32,
          outputVoltageFlipFlop := true, bufferOverrunSamples := 0,
          bufferSampleOffsets := 0, slewBufferSampleNum := 32,
          slewBufferPosition := 35, stepPerOutput := 0, nextStepPerOutput := 1,
          squareOutput := 0, slewArray := [],
          pattern := [1, 2, 3, 4, 5, 6, 7, 8] }).slewBufferSampleNum =
        min SLEW_BUFFER_SIZE_IN_SAMPLES
          (⌊(1000 : ℚ) / 1000 * ((1 : ℕ) : ℚ) * (((32 : ℤ)) : ℚ)⌋ + 3)) := by
  have h := C1_overrunFeedback 0 (fun _ => 0)
    { clockStep := 6, unClockedMode := false, averageMsBetweenClocks := 1000,
      patternLength := 8 }
    { outputDivision := 1, outputSlewMode := 1, samplesPerSec := 32,
      outputVoltageFlipFlop := true, bufferOverrunSamples := 0,
      bufferSampleOffsets := 0, slewBufferSampleNum := 32,
      slewBufferPosition := 35, stepPerOutput := 0, nextStepPerOutput := 1,
      squareOutput := 0, slewArray := [],
      pattern := [1, 2, 3, 4, 5, 6, 7, 8] } 3
    (by norm_num) (by norm_num [CLOCK_DIFF_BUFFER_LEN]) rfl rfl (by norm_num)
    (by norm_num) (by norm_num)
  exact ⟨by norm_num, by norm_num [CLOCK_DIFF_BUFFER_LEN], by norm_num, h.1, h.2⟩

theorem emitTick_position (s : EmitState) :
    (emitTick s).1.slewBufferPosition = s.slewBufferPosition + 1 := by
  unfold emitTick
  split_ifs <;> rfl

theorem emitTicks_position (n : ℕ) (s : EmitState) :
    (emitTicks n s).slewBufferPosition = s.slewBufferPosition + n := by
  induction n generalizing s with
  | zero => rfl
  | succ n ih =>
    show (emitTicks n (emitTick s).1).slewBufferPosition = _
    rw [ih, emitTick_position]
    omega

/-- C10: the cursor advances by exactly 1 on every emission tick, whether
or not a buffered sample was available; hence after `n` ticks from a
fresh segment (cursor 0) the cursor is `n`, and the overrun computed at
the next division-aligned clock step in clocked steady state is
`n - targetSampleCount` (negative when fewer ticks occurred than the
target). -/
theorem C10_cursorOverrunInvariant (n : ℕ) (s : EmitState) (piA : ℚ)
    (cosF : ℚ → ℚ) (g : ClockGlobals) (ch : ClockChannelState)
    (hpos0 : s.slewBufferPosition = 0)
    (halign : g.clockStep % ch.outputDivision = 0)
    (hstep : CLOCK_DIFF_BUFFER_LEN < g.clockStep)
    (hclocked : g.unClockedMode = false)
    (hch : ch.slewBufferPosition = (emitTicks n s).slewBufferPosition) :
    (∀ t : EmitState, (emitTick t).1.slewBufferPosition = t.slewBufferPosition + 1) ∧
    (emitTicks n s).slewBufferPosition = n ∧
    (handleClockStepChannel piA cosF g ch).bufferOverrunSamples =
      (n : ℤ) - ch.slewBufferSampleNum := by
  have hn : (emitTicks n s).slewBufferPosition = n := by
    rw [emitTicks_position, hpos0, Nat.zero_add]
  refine ⟨emitTick_position, hn, ?_⟩
  have hcond : CLOCK_DIFF_BUFFER_LEN < g.clockStep ∧ g.unClockedMode = false :=
    ⟨hstep, hclocked⟩
  unfold handleClockStepChannel
  rw [if_pos halign]
  simp only [if_pos hcond]
  rw [hch, hn]

/-- C10 witness: three ticks from a fresh segment put the cursor at 3;
against a target of 5 the next clock step records overrun `3 - 5 = -2`. -/
theorem C10_cursorOverrunInvariant_witness :
    ((emitTicks 3
        { outputSlewMode := 1, squareOutput := 0, slewBuffer := [1, 2, 3, 4, 5],
          slewBufferPosition := 0, slewBufferSampleNum := 5,
          previousOutputVoltage := 0, bufferUnderrunCounter := 0 }).slewBufferPosition = 3 ∧
      (handleClockStepChannel 0 (fun _ => 0)
        { clockStep := 6, unClockedMode := false, averageMsBetweenClocks := 1000,
          patternLength := 8 }
        { outputDivision := 2, outputSlewMode := 1, samplesPerSec := 32,
          outputVoltageFlipFlop := true, bufferOverrunSamples := 0,
          bufferSampleOffsets := 0, slewBufferSampleNum := 5,
          slewBufferPosition := 3, stepPerOutput := 0, nextStepPerOutput := 1,
          squareOutput := 0, slewArray := [],
          pattern := [1, 2, 3, 4, 5, 6, 7, 8] }).bufferOverrunSamples =
        (3 : ℤ) - 5) := by
  have h := C10_cursorOverrunInvariant 3
    { outputSlewMode := 1, squareOutput := 0, slewBuffer := [1, 2, 3, 4, 5],
      slewBufferPosition := 0, slewBufferSampleNum := 5,
      previousOutputVoltage := 0, bufferUnderrunCounter := 0 }
    0 (fun _ => 0)
    { clockStep := 6, unClockedMode := false, averageMsBetweenClocks := 1000,
      patternLength := 8 }
    { outputDivision := 2, outputSlewMode := 1, samplesPerSec := 32,
      outputVoltageFlipFlop := true, bufferOverrunSamples := 0,
      bufferSampleOffsets := 0, slewBufferSampleNum := 5,
      slewBufferPosition := 3, stepPerOutput := 0, nextStepPerOutput := 1,
      squareOutput := 0, slewArray := [],
      pattern := [1, 2, 3, 4, 5, 6, 7, 8] }
    rfl (by norm_num) (by norm_num [CLOCK_DIFF_BUFFER_LEN]) rfl
    (by rw [emitTicks_position])
  exact ⟨h.2.1, h.2.2⟩

/-- C8: in clocked mode, once the engine has been clocked at least once
(`clockStep != 0`), if no clock edge arrived for longer than
`resetTimeout` (== `MAX_CLOCK_TIME_MS`) then every channel's step index
is 0, every output is driven to the off value (0 V), every underrun
counter, overrun-sample count, buffer cursor and sample-offset
correction is 0, and the engine leaves the running state. -/
theorem C8_resetOnSilence (now : ℤ) (s : EngineState)
    (h1 : s.unClockedMode = false) (h2 : s.clockStep ≠ 0)
    (h3 : (resetTimeout : ℤ) < now - s.lastDinTrigger) :
    (resetCheck now s).stepPerOutput = List.replicate 6 0 ∧
    (resetCheck now s).outputVoltages = List.replicate 6 0 ∧
    (resetCheck now s).bufferUnderrunCounter = List.replicate 6 0 ∧
    (resetCheck now s).bufferOverrunSamples = List.replicate 6 0 ∧
    (resetCheck now s).slewBufferPosition = List.replicate 6 0 ∧
    (resetCheck now s).bufferSampleOffsets = List.replicate 6 0 ∧
    (resetCheck now s).running = false ∧
    resetTimeout = MAX_CLOCK_TIME_MS := by
  unfold resetCheck
  rw [if_pos ⟨h1, h2, h3⟩]
  exact ⟨rfl, rfl, rfl, rfl, rfl, rfl, rfl, rfl⟩

/-- C8 witness: a running engine last clocked at time 0 is reset at time
4000 ms (silence longer than the 3750 ms timeout). -/
theorem C8_resetOnSilence_witness :
    ((false = false) ∧ (3 : ℕ) ≠ 0 ∧ (resetTimeout : ℤ) < 4000 - 0 ∧
      ((resetCheck 4000
        { unClockedMode := false, clockStep := 3,
          stepPerOutput := [1, 2, 3, 4, 5, 0], outputVoltages := [1, 1, 1, 1, 1, 1],
          screenRefreshNeeded := false, pendingSaveState := false, running := true,
          bufferUnderrunCounter := [0, 0, 0, 0, 0, 1],
          bufferOverrunSamples := [0, 0, 0, 0, 0, 2],
          slewBufferPosition := [5, 0, 0, 0, 0, 0],
          bufferSampleOffsets := [0, 1, 0, 0, 0, 0],
          lastDinTrigger := 0 }).stepPerOutput = List.replicate 6 0 ∧
      (resetCheck 4000
        { unClockedMode := false, clockStep := 3,
          stepPerOutput := [1, 2, 3, 4, 5, 0], outputVoltages := [1, 1, 1, 1, 1, 1],
          screenRefreshNeeded := false, pendingSaveState := false, running := true,
          bufferUnderrunCounter := [0, 0, 0, 0, 0, 1],
          bufferOverrunSamples := [0, 0, 0, 0, 0, 2],
          slewBufferPosition := [5, 0, 0, 0, 0, 0],
          bufferSampleOffsets := [0, 1, 0, 0, 0, 0],
          lastDinTrigger := 0 }).running = false)) := by
  have h := C8_resetOnSilence 4000
    { unClockedMode := false, clockStep := 3,
      stepPerOutput := [1, 2, 3, 4, 5, 0], outputVoltages := [1, 1, 1, 1, 1, 1],
      screenRefreshNeeded := false, pendingSaveState := false, running := true,
      bufferUnderrunCounter := [0, 0, 0, 0, 0, 1],
      bufferOverrunSamples := [0, 0, 0, 0, 0, 2],
      slewBufferPosition := [5, 0, 0, 0, 0, 0],
      bufferSampleOffsets := [0, 1, 0, 0, 0, 0],
      lastDinTrigger := 0 }
    rfl (by norm_num) (by norm_num [resetTimeout, MAX_CLOCK_TIME_MS])
  exact ⟨rfl, by norm_num, by norm_num [resetTimeout, MAX_CLOCK_TIME_MS],
    h.1, h.2.2.2.2.2.2.1⟩

/-- C9 counterexample: regenerating the patterns of all six outputs with
the second `generateRandomPattern` call raising leaves the function
returning `False` with output 0's pattern already replaced — the banks
are *not* "exactly what they were before the call". -/
theorem C9_counterexample :
    (generateNewRandomCVPattern (fun k => if k = 0 then some [(9 : ℚ)] else none)
        [[[1]], [[2]], [[3]], [[4]], [[5]], [[6]]] 0 0 false false).1 = false ∧
    (generateNewRandomCVPattern (fun k => if k = 0 then some [(9 : ℚ)] else none)
        [[[1]], [[2]], [[3]], [[4]], [[5]], [[6]]] 0 0 false false).2 =
      [[[9]], [[2]], [[3]], [[4]], [[5]], [[6]]] ∧
    ([[[9]], [[2]], [[3]], [[4]], [[5]], [[6]]] : List (List Pattern)) ≠
      [[[1]], [[2]], [[3]], [[4]], [[5]], [[6]]] := by
  refine ⟨?_, ?_, ?_⟩
  · simp [generateNewRandomCVPattern, regenUpdate]
  · simp [generateNewRandomCVPattern, regenUpdate]
  · norm_num

theorem regenUpdate_length (gen : ℕ → Option Pattern) (cvP : ℕ) :
    ∀ (l : List (List Pattern)) (k : ℕ),
      (regenUpdate gen cvP k l).2.length = l.length := by
  intro l
  induction l with
  | nil => intro k; simp [regenUpdate]
  | cons b rest ih =>
    intro k
    cases hg : gen k with
    | none => simp [regenUpdate, hg]
    | some p => simp [regenUpdate, hg, ih]

theorem regenUpdate_fst (gen : ℕ → Option Pattern) (cvP : ℕ) :
    ∀ (l : List (List Pattern)) (k : ℕ),
      ((regenUpdate gen cvP k l).1 = true ↔
        ∀ i, i < l.length → (gen (k + i)).isSome = true) := by
  intro l
  induction l with
  | nil => intro k; simp [regenUpdate]
  | cons b rest ih =>
    intro k
    cases hg : gen k with
    | none =>
      simp only [regenUpdate, hg]
      constructor
      · intro h; cases h
      · intro h
        have h0 := h 0 (by simp)
        rw [Nat.add_zero, hg] at h0
        cases h0
    | some p =>
      simp only [regenUpdate, hg]
      rw [ih (k + 1)]
      constructor
      · intro h i hi
        cases i with
        | zero => rw [Nat.add_zero, hg]; rfl
        | succ j =>
          have := h j (by simpa using Nat.lt_of_succ_lt_succ hi)
          rw [show k + 1 + j = k + (j + 1) by omega] at this
          exact this
      · intro h i hi
        have := h (i + 1) (by simpa using Nat.succ_lt_succ hi)
        rw [show k + (i + 1) = k + 1 + i by omega] at this
        exact this

theorem regenUpdate_getD (gen : ℕ → Option Pattern) (cvP : ℕ) :
    ∀ (l : List (List Pattern)) (k i : ℕ), i < l.length →
      (∀ j, j < i → (gen (k + j)).isSome = true) → gen (k + i) = none →
      ∀ m, m < l.length →
        ((i ≤ m → (regenUpdate gen cvP k l).2.getD m [] = l.getD m []) ∧
         (m < i → (regenUpdate gen cvP k l).2.getD m [] =
            (l.getD m []).set cvP ((gen (k + m)).getD []))) := by
  intro l
  induction l with
  | nil => intro k i hi; simp at hi
  | cons b rest ih =>
    intro k i hi hpre hfail m hm
    cases i with
    | zero =>
      rw [Nat.add_zero] at hfail
      refine ⟨fun _ => ?_, fun hm0 => absurd hm0 (Nat.not_lt_zero m)⟩
      simp [regenUpdate, hfail]
    | succ i' =>
      have hg0 : (gen k).isSome = true := by
        have := hpre 0 (Nat.succ_pos i')
        rwa [Nat.add_zero] at this
      obtain ⟨p, hp⟩ := Option.isSome_iff_exists.mp hg0
      have hfail' : gen (k + 1 + i') = none := by
        rwa [show k + 1 + i' = k + (i' + 1) by omega]
      have hpre' : ∀ j, j < i' → (gen (k + 1 + j)).isSome = true := by
        intro j hj
        have := hpre (j + 1) (by omega)
        rwa [show k + (j + 1) = k + 1 + j by omega] at this
      cases m with
      | zero =>
        refine ⟨fun hle => absurd hle (by omega), fun _ => ?_⟩
        rw [Nat.add_zero]
        simp [regenUpdate, hp]
      | succ m' =>
        have hrec := ih (k + 1) i' (by simpa using Nat.lt_of_succ_lt_succ hi)
          hpre' hfail' m' (by simpa using Nat.lt_of_succ_lt_succ hm)
        constructor
        · intro hle
          have := hrec.1 (by omega)
          simpa [regenUpdate, hp] using this
        · intro hlt
          have := hrec.2 (by omega)
          rw [show k + (m' + 1) = k + 1 + m' by omega]
          simpa [regenUpdate, hp] using this

/-- C9 (amended): `generateNewRandomCVPattern` returns `True` iff every
generation call succeeds and `False` as soon as one raises; regenerating
only the active output's pattern is atomic (on failure the banks are
untouched); regenerating all outputs never changes the number of banks,
and on a failure at the `i`-th output the outputs before `i` already hold
their newly generated patterns while output `i` and all later outputs
keep their previous contents — the update is not atomic across
outputs. -/
theorem C9_regenerationOutcome (gen : ℕ → Option Pattern)
    (banks : List (List Pattern)) (sel cvP : ℕ) :
    (gen 0 = none →
      generateNewRandomCVPattern gen banks sel cvP false true = (false, banks)) ∧
    ((generateNewRandomCVPattern gen banks sel cvP false false).1 = true ↔
      ∀ i, i < banks.length → (gen i).isSome = true) ∧
    ((generateNewRandomCVPattern gen banks sel cvP false false).2.length =
      banks.length) ∧
    (∀ i, i < banks.length → (∀ j, j < i → (gen j).isSome = true) →
      gen i = none →
      ((generateNewRandomCVPattern gen banks sel cvP false false).1 = false ∧
       ∀ m, m < banks.length →
         ((i ≤ m →
            (generateNewRandomCVPattern gen banks sel cvP false false).2.getD m [] =
              banks.getD m []) ∧
          (m < i →
            (generateNewRandomCVPattern gen banks sel cvP false false).2.getD m [] =
              (banks.getD m []).set cvP ((gen m).getD []))))) := by
  have hdef : generateNewRandomCVPattern gen banks sel cvP false false =
      regenUpdate gen cvP 0 banks := by
    simp [generateNewRandomCVPattern]
  refine ⟨fun h0 => ?_, ?_, ?_, ?_⟩
  · simp [generateNewRandomCVPattern, h0]
  · rw [hdef, regenUpdate_fst]
    simp
  · rw [hdef, regenUpdate_length]
  · intro i hi hpre hfail
    have hpre0 : ∀ j, j < i → (gen (0 + j)).isSome = true := by
      intro j hj; rw [Nat.zero_add]; exact hpre j hj
    have hfail0 : gen (0 + i) = none := by rwa [Nat.zero_add]
    constructor
    · have := regenUpdate_fst gen cvP banks 0
      rw [hdef]
      rcases hb : (regenUpdate gen cvP 0 banks).1 with _ | _
      · rfl
      · exfalso
        have hall := (regenUpdate_fst gen cvP banks 0).mp hb
        have := hall i hi
        rw [Nat.zero_add, hfail] at this
        cases this
    · intro m hm
      have h := regenUpdate_getD gen cvP banks 0 i hi hpre0 hfail0 m hm
      rw [hdef]
      exact ⟨fun hle => h.1 hle, fun hlt => by
        have := h.2 hlt
        rwa [Nat.zero_add] at this⟩

/-- C9 witness: with six banks, call 0 succeeding and call 1 raising, the
function reports failure, output 0 holds the new pattern `[9]`, and
output 3 keeps its previous pattern `[4]`. -/
theorem C9_regenerationOutcome_witness :
    ((1 : ℕ) < 6 ∧
      (generateNewRandomCVPattern (fun k => if k = 0 then some [(9 : ℚ)] else none)
          [[[1]], [[2]], [[3]], [[4]], [[5]], [[6]]] 0 0 false false).1 = false ∧
      (generateNewRandomCVPattern (fun k => if k = 0 then some [(9 : ℚ)] else none)
          [[[1]], [[2]], [[3]], [[4]], [[5]], [[6]]] 0 0 false false).2.getD 3 [] =
        [[4]] ∧
      (generateNewRandomCVPattern (fun k => if k = 0 then some [(9 : ℚ)] else none)
          [[[1]], [[2]], [[3]], [[4]], [[5]], [[6]]] 0 0 false false).2.getD 0 [] =
        [[9]]) := by
  have h := (C9_regenerationOutcome
      (fun k => if k = 0 then some [(9 : ℚ)] else none)
      [[[1]], [[2]], [[3]], [[4]], [[5]], [[6]]] 0 0).2.2.2 1
    (by norm_num) (fun j hj => by interval_cases j; simp) (by simp)
  refine ⟨by norm_num, h.1, ?_, ?_⟩
  · have := (h.2 3 (by norm_num)).1 (by norm_num)
    simpa using this
  · have := (h.2 0 (by norm_num)).2 (by norm_num)
    simpa using this

end EgressusMelodiam
